import Mathlib

/-!
Verification of the address-book program (`main.py`) against its
natural-language specification.

The development embeds the program shallowly:

* the calendar arithmetic of CPython `datetime.date` (ordinals, weekdays,
  leap years, `replace(year=...)`) as functions on a `PyDate` structure;
* `datetime.strptime(value, "%d.%m.%Y")` as an executable parser
  `strptime_dmY`, following the regular expression CPython builds for this
  format (`(?P<d>3[01]|[12]\d|0[1-9]|[1-9])\.(?P<m>1[0-2]|0[1-9]|[1-9])\.(?P<Y>\d\d\d\d)`),
  where `\d` matches any Unicode decimal digit (category Nd);
* `str.isdigit` as a character table over the Unicode decimal-digit ranges;
* the classes `Phone`, `Birthday`, `Record`, `AddressBook` and the command
  handlers, with Python exceptions modelled by the inductive `PyErr` and the
  `input_error` decorator modelled as the map from exception kind to the
  fixed user-facing message.

Stateful Python code (dict insertion, in-place mutation of a `Record`)
is modelled by explicit state passing: each handler takes and returns the
address book.
-/

/-! ## Calendar arithmetic (CPython `datetime.date`) -/

/-- CPython `datetime._is_leap`: `year % 4 == 0 and (year % 100 != 0 or year % 400 == 0)`. -/
def isLeapB (y : Nat) : Bool :=
  (y % 4 == 0) && (!(y % 100 == 0) || (y % 400 == 0))

theorem isLeapB_eq_true (y : Nat) :
    isLeapB y = true ↔ (y % 4 = 0 ∧ (y % 100 ≠ 0 ∨ y % 400 = 0)) := by
  simp [isLeapB, Bool.and_eq_true, Bool.or_eq_true]

theorem isLeapB_eq_false (y : Nat) :
    isLeapB y = false ↔ ¬ (y % 4 = 0 ∧ (y % 100 ≠ 0 ∨ y % 400 = 0)) := by
  rw [← isLeapB_eq_true]
  cases h : isLeapB y <;> simp

/-- CPython `datetime._days_in_month`: the table `_DAYS_IN_MONTH[month]`,
with February adjusted in leap years.  Months outside 1..12 are rejected by
`_check_date_fields` before this table is consulted, so the value returned
for them is irrelevant (we use 0). -/
def daysInMonth (y m : Nat) : Nat :=
  if m = 2 && isLeapB y then 29
  else
    match m with
    | 1 => 31 | 2 => 28 | 3 => 31 | 4 => 30 | 5 => 31 | 6 => 30
    | 7 => 31 | 8 => 31 | 9 => 30 | 10 => 31 | 11 => 30 | 12 => 31
    | _ => 0

/-- CPython `datetime._days_before_month`:
`_DAYS_BEFORE_MONTH[month] + (month > 2 and _is_leap(year))`. -/
def daysBeforeMonth (y m : Nat) : Nat :=
  (match m with
   | 1 => 0 | 2 => 31 | 3 => 59 | 4 => 90 | 5 => 120 | 6 => 151
   | 7 => 181 | 8 => 212 | 9 => 243 | 10 => 273 | 11 => 304 | 12 => 334
   | _ => 0) +
  (if 2 < m && isLeapB y then 1 else 0)

/-- CPython `datetime._days_before_year`:
`y = year - 1; return y*365 + y//4 - y//100 + y//400`. -/
def daysBeforeYear (year : Nat) : Nat :=
  (year - 1) * 365 + (year - 1) / 4 - (year - 1) / 100 + (year - 1) / 400

/-- A calendar date as held by `datetime.date`. -/
structure PyDate where
  year : Nat
  month : Nat
  day : Nat
  deriving DecidableEq

/-- CPython `date.toordinal()`: days since 0001-01-01, which has ordinal 1. -/
def PyDate.toOrdinal (dt : PyDate) : Nat :=
  daysBeforeYear dt.year + daysBeforeMonth dt.year dt.month + dt.day

/-- CPython `date.weekday()`: `(self.toordinal() + 6) % 7`, Monday = 0. -/
def PyDate.weekday (dt : PyDate) : Nat :=
  (dt.toOrdinal + 6) % 7

/-- CPython `datetime._check_date_fields`: `MINYEAR <= year <= MAXYEAR`,
`1 <= month <= 12`, `1 <= day <= days_in_month(year, month)`. -/
def validDateB (y m d : Nat) : Bool :=
  decide (1 ≤ y) && decide (y ≤ 9999) && decide (1 ≤ m) && decide (m ≤ 12) &&
    decide (1 ≤ d) && decide (d ≤ daysInMonth y m)

/-- The date fields are in range, without the MAXYEAR bound (used for the
ordinal arithmetic, which does not depend on it). -/
def PyDate.ValidYMD (dt : PyDate) : Prop :=
  1 ≤ dt.year ∧ 1 ≤ dt.month ∧ dt.month ≤ 12 ∧ 1 ≤ dt.day ∧
    dt.day ≤ daysInMonth dt.year dt.month

instance (dt : PyDate) : Decidable dt.ValidYMD := by
  unfold PyDate.ValidYMD
  infer_instance

/-- CPython `date.__lt__`: lexicographic comparison of `(year, month, day)`. -/
def PyDate.ltB (a b : PyDate) : Bool :=
  decide (a.year < b.year) ||
    (a.year == b.year &&
      (decide (a.month < b.month) ||
        (a.month == b.month && decide (a.day < b.day))))

/-- The day after `dt` in the proleptic Gregorian calendar (the effect of
`date.fromordinal (dt.toordinal () + 1)` for in-range dates). -/
def PyDate.nextDay (dt : PyDate) : PyDate :=
  if dt.day < daysInMonth dt.year dt.month then ⟨dt.year, dt.month, dt.day + 1⟩
  else if dt.month < 12 then ⟨dt.year, dt.month + 1, 1⟩
  else ⟨dt.year + 1, 1, 1⟩

/-- The character for a single decimal digit value. -/
def digitChar (n : Nat) : Char := Char.ofNat (48 + n % 10)

/-- Zero-padded two-digit rendering, as `strftime` `%d` and `%m` produce. -/
def pad2 (n : Nat) : String := String.mk [digitChar (n / 10), digitChar n]

/-- Zero-padded four-digit rendering of the year; agrees with `strftime`
`%Y` on the four-digit years this program constructs. -/
def pad4 (n : Nat) : String :=
  String.mk [digitChar (n / 1000), digitChar (n / 100), digitChar (n / 10), digitChar n]

/-- `date.strftime("%d.%m.%Y")` as used by `get_upcoming_birthdays`. -/
def strftime_dmY (dt : PyDate) : String :=
  pad2 dt.day ++ "." ++ pad2 dt.month ++ "." ++ pad4 dt.year

/-! ## `datetime.strptime(value, "%d.%m.%Y")`

CPython `_strptime` compiles the format into the regular expression
`(?P<d>3[01]|[12]\d|0[1-9]|[1-9])\.(?P<m>1[0-2]|0[1-9]|[1-9])\.(?P<Y>\d\d\d\d)`
and requires it to match the whole string.  The literal characters in the
alternatives are ASCII, while `\d` matches any Unicode decimal digit
(category Nd), and `int()` converts such digits by their decimal value.
Because the field alternatives never contain a dot, a string matches the
whole pattern iff splitting it at the dots yields exactly three fields
matching the three groups, and that decomposition is unique. -/

/-- ASCII decimal digit. -/
def isAsciiDigit (c : Char) : Bool :=
  decide (48 ≤ c.toNat) && decide (c.toNat ≤ 57)

/-- First code points of the non-ASCII Unicode decimal-digit (Nd) ranges;
each range holds the ten consecutive digits 0..9 (Unicode 15.0, as shipped
with current CPython). -/
def ndBasesSupp : List Nat :=
  [0x660, 0x6F0, 0x7C0, 0x966, 0x9E6, 0xA66, 0xAE6, 0xB66, 0xBE6, 0xC66,
   0xCE6, 0xD66, 0xDE6, 0xE50, 0xED0, 0xF20, 0x1040, 0x1090, 0x17E0, 0x1810,
   0x1946, 0x19D0, 0x1A80, 0x1A90, 0x1B50, 0x1BB0, 0x1C40, 0x1C50, 0xA620,
   0xA8D0, 0xA900, 0xA9D0, 0xA9F0, 0xAA50, 0xABF0, 0xFF10, 0x104A0, 0x10D30,
   0x11066, 0x110F0, 0x11136, 0x111D0, 0x112F0, 0x11450, 0x114D0, 0x11650,
   0x116C0, 0x11730, 0x118E0, 0x11950, 0x11C50, 0x11D50, 0x11DA0, 0x11F50,
   0x16A60, 0x16AC0, 0x16B50, 0x1D7CE, 0x1D7D8, 0x1D7E2, 0x1D7EC, 0x1D7F6,
   0x1E140, 0x1E2F0, 0x1E4F0, 0x1E950, 0x1FBF0]

/-- Unicode decimal digit (category Nd): what `\d` matches in a CPython
`str` regular expression. -/
def isNd (c : Char) : Bool :=
  isAsciiDigit c || ndBasesSupp.any (fun b => decide (b ≤ c.toNat) && decide (c.toNat < b + 10))

/-- Decimal value of a Unicode decimal digit (0 for non-digits, which never
reach this function on matched fields). -/
def ndVal (c : Char) : Nat :=
  if isAsciiDigit c then c.toNat - 48
  else
    match ndBasesSupp.find? (fun b => decide (b ≤ c.toNat) && decide (c.toNat < b + 10)) with
    | some b => c.toNat - b
    | none => 0

/-- `int()` applied to a field of decimal-digit characters. -/
def pyInt (cs : List Char) : Nat :=
  cs.foldl (fun a c => 10 * a + ndVal c) 0

/-- Split a character list at every dot; the fields between dots (regular
expression groups) keep their order. -/
def splitDots : List Char → List (List Char)
  | [] => [[]]
  | c :: rest =>
    match splitDots rest with
    | [] => [[]]
    | g :: gs => if c = '.' then [] :: g :: gs else (c :: g) :: gs

/-- Inverse of `splitDots`: rejoin fields with dots. -/
def joinDots : List (List Char) → List Char
  | [] => []
  | [g] => g
  | g :: gs => g ++ '.' :: joinDots gs

/-- The `%d` group `3[01]|[12]\d|0[1-9]|[1-9]` (character codes:
48 = the zero digit, 49 = one, 50 = two, 51 = three, 57 = nine). -/
def matchDay : List Char → Bool
  | [c] => decide (49 ≤ c.toNat) && decide (c.toNat ≤ 57)
  | [c1, c2] =>
    (c1.toNat == 51 && (c2.toNat == 48 || c2.toNat == 49)) ||
      ((c1.toNat == 49 || c1.toNat == 50) && isNd c2) ||
      (c1.toNat == 48 && decide (49 ≤ c2.toNat) && decide (c2.toNat ≤ 57))
  | _ => false

/-- The `%m` group `1[0-2]|0[1-9]|[1-9]`. -/
def matchMonth : List Char → Bool
  | [c] => decide (49 ≤ c.toNat) && decide (c.toNat ≤ 57)
  | [c1, c2] =>
    (c1.toNat == 49 && decide (48 ≤ c2.toNat) && decide (c2.toNat ≤ 50)) ||
      (c1.toNat == 48 && decide (49 ≤ c2.toNat) && decide (c2.toNat ≤ 57))
  | _ => false

/-- The `%Y` group `\d\d\d\d`. -/
def matchYear (cs : List Char) : Bool :=
  cs.length == 4 && cs.all isNd

/-- `datetime.strptime(s, "%d.%m.%Y")`, returning the parsed date, or
`none` where CPython raises `ValueError` (no regular-expression match,
trailing text, or date fields rejected by the `datetime` constructor). -/
def strptime_dmY (s : String) : Option PyDate :=
  match splitDots s.toList with
  | [ds, ms, ys] =>
    if matchDay ds && matchMonth ms && matchYear ys then
      if validDateB (pyInt ys) (pyInt ms) (pyInt ds) then
        some ⟨pyInt ys, pyInt ms, pyInt ds⟩
      else none
    else none
  | _ => none

/-! ## `str.isdigit` and the validated field types -/

/-- Ranges `(first, length)` of the characters with Unicode property
`Numeric_Type = Digit` that are not in category Nd (superscripts,
subscripts, circled digits, Ethiopic digits, and similar); together with
Nd these are exactly the characters `str.isdigit` accepts. -/
def digitExtraRanges : List (Nat × Nat) :=
  [(0xB2, 2), (0xB9, 1), (0x1369, 9), (0x19DA, 1), (0x2070, 1), (0x2074, 6),
   (0x2080, 10), (0x2460, 9), (0x2474, 9), (0x2488, 9), (0x24EA, 1),
   (0x24F5, 9), (0x2776, 9), (0x2780, 9), (0x278A, 9), (0x10A40, 4),
   (0x10E60, 9)]

/-- Per-character test of CPython `str.isdigit`: Numeric_Type Digit or
Decimal. -/
def py_isdigit (c : Char) : Bool :=
  isNd c || digitExtraRanges.any (fun p => decide (p.1 ≤ c.toNat) && decide (c.toNat < p.1 + p.2))

/-- CPython `str.isdigit()`: false on the empty string, else true iff every
character passes `py_isdigit`. -/
def pyStrIsdigit (s : String) : Bool :=
  !s.toList.isEmpty && s.toList.all py_isdigit

/-- The Python exception kinds the handlers distinguish. -/
inductive PyErr where
  | valueError
  | indexError
  | keyError
  | attributeError
  deriving DecidableEq

deriving instance DecidableEq for Except

/-- The `input_error` decorator: each exception kind escaping a handler is
converted to its fixed user-facing message. -/
def input_error : PyErr → String
  | .valueError => "Provide correct data."
  | .indexError => "Not enough arguments."
  | .keyError => "Contact not found."
  | .attributeError => "Contact not found."

/-- `Phone.__init__`: `if not value.isdigit() or len(value) != 10: raise
ValueError`; on success the raw string is stored as the value. -/
def Phone.init (value : String) : Except PyErr String :=
  if !pyStrIsdigit value || value.length != 10 then .error PyErr.valueError
  else .ok value

/-- `Birthday.__init__`: `datetime.strptime(value, "%d.%m.%Y")` validates
the text; the raw string is stored as the value. -/
def Birthday.init (value : String) : Except PyErr String :=
  match strptime_dmY value with
  | none => .error PyErr.valueError
  | some _ => .ok value

/-! ## Records, the address book, and the handlers

A Python `Record` aliases its `Phone` objects; `edit_phone` mutates the
found object in place, which in this functional embedding is the update of
the list at the index of the first match.  An `AddressBook` is a `dict`
keyed by contact name: insertion order is preserved, and assigning to an
existing key replaces its value in place. -/

/-- One contact: `Record.name.value`, the list of `Phone.value` strings in
insertion order, and the optional `Birthday.value` text. -/
structure Record where
  name : String
  phones : List String
  birthday : Option String
  deriving DecidableEq

/-- `Record.find_phone`: index of the first phone whose value equals
`phone` (the Python method returns that `Phone` object, `None` if absent). -/
def Record.find_phone (r : Record) (phone : String) : Option Nat :=
  r.phones.findIdx? (fun p => p == phone)

/-- `Record.add_phone`: validate and append. -/
def Record.add_phone (r : Record) (phone : String) : Except PyErr Record :=
  match Phone.init phone with
  | .error e => .error e
  | .ok v => .ok { r with phones := r.phones ++ [v] }

/-- `Record.edit_phone`: `raise ValueError` when no phone equals
`old_phone`; else validate `new_phone` and overwrite the found object's
value in place (same list position). -/
def Record.edit_phone (r : Record) (oldP newP : String) : Except PyErr Record :=
  match r.find_phone oldP with
  | none => .error PyErr.valueError
  | some i =>
    match Phone.init newP with
    | .error e => .error e
    | .ok v => .ok { r with phones := r.phones.set i v }

/-- The address book: the underlying `dict` as an insertion-ordered
association list. -/
structure AddressBook where
  data : List (String × Record)
  deriving DecidableEq

/-- `dict.__setitem__`: replace the value at an existing key in place,
else append the new pair at the end. -/
def dictSet (l : List (String × Record)) (k : String) (v : Record) :
    List (String × Record) :=
  match l with
  | [] => [(k, v)]
  | (k1, v1) :: rest => if k1 == k then (k, v) :: rest else (k1, v1) :: dictSet rest k v

/-- `AddressBook.add_record`: `self.data[record.name.value] = record`. -/
def AddressBook.add_record (book : AddressBook) (record : Record) : AddressBook :=
  ⟨dictSet book.data record.name record⟩

/-- `AddressBook.find`: `self.data.get(name)`. -/
def AddressBook.find (book : AddressBook) (name : String) : Option Record :=
  (book.data.find? (fun q => q.1 == name)).map Prod.snd

/-- `date.replace(year=y)`: rebuild the date with the new year; the
`datetime` constructor re-checks the fields and raises `ValueError` when
they do not form a real date (such as Feb 29 in a non-leap year). -/
def PyDate.replaceYear (dt : PyDate) (y : Nat) : Except PyErr PyDate :=
  if validDateB y dt.month dt.day then .ok ⟨y, dt.month, dt.day⟩
  else .error PyErr.valueError

/-- Modelled from the spec: the function `adjust_for_weekend` lives in the
module `date_utils`, which the repository imports but whose file is not
present under `src/`.  Per the spec, a date falling on Saturday is shifted
forward to the following Monday (+2 days) and one falling on Sunday to the
following Monday (+1 day); weekdays are returned unchanged.  The +1/+2 day
shifts are realized by iterating `PyDate.nextDay`. -/
def adjust_for_weekend (dt : PyDate) : PyDate :=
  if dt.weekday = 5 then dt.nextDay.nextDay
  else if dt.weekday = 6 then dt.nextDay
  else dt

/-- One result row of `get_upcoming_birthdays`: the dictionary with keys
`name` and `congratulation_date`. -/
structure UpcomingEntry where
  name : String
  congratulation_date : String
  deriving DecidableEq

/-- The body of the `get_upcoming_birthdays` loop for a single record:
skip records without a birthday; re-parse the stored text; move the
birthday to this year, or to next year when this year's occurrence is
before today; adjust for weekends; emit the row when the adjusted date is
between today and `days` days from now, both ends inclusive.  A
`ValueError` from `strptime` or `replace` aborts the whole query. -/
def processRecord (today : PyDate) (days : Nat) (r : Record) :
    Except PyErr (Option UpcomingEntry) :=
  match r.birthday with
  | none => .ok none
  | some b =>
    match strptime_dmY b with
    | none => .error PyErr.valueError
    | some birthday_date =>
      match birthday_date.replaceYear today.year with
      | .error e => .error e
      | .ok t1 =>
        match (if PyDate.ltB t1 today then t1.replaceYear (today.year + 1) else .ok t1) with
        | .error e => .error e
        | .ok occ =>
          if 0 ≤ ((adjust_for_weekend occ).toOrdinal : Int) - (today.toOrdinal : Int) ∧
              ((adjust_for_weekend occ).toOrdinal : Int) - (today.toOrdinal : Int) ≤ (days : Int)
          then .ok (some ⟨r.name, strftime_dmY (adjust_for_weekend occ)⟩)
          else .ok none

/-- The `get_upcoming_birthdays` loop over the records in dictionary
order, collecting the emitted rows. -/
def upcomingLoop (today : PyDate) (days : Nat) : List Record → Except PyErr (List UpcomingEntry)
  | [] => .ok []
  | r :: rs =>
    match processRecord today days r with
    | .error e => .error e
    | .ok none => upcomingLoop today days rs
    | .ok (some entry) =>
      match upcomingLoop today days rs with
      | .error e => .error e
      | .ok rest => .ok (entry :: rest)

/-- `AddressBook.get_upcoming_birthdays(days=7)`, with `date.today()`
passed explicitly. -/
def AddressBook.get_upcoming_birthdays (book : AddressBook) (today : PyDate)
    (days : Nat) : Except PyErr (List UpcomingEntry) :=
  upcomingLoop today days (book.data.map Prod.snd)

/-- Handler `add_contact(args, book)`: unpacking fewer than two arguments
raises `ValueError`; a fresh `Record` is inserted before the phone is
validated, so a bad phone leaves the fresh record behind; a non-empty
phone is validated and appended.  Errors are turned into messages by
`input_error`; the pair returned is (message, book after the call). -/
def add_contact (args : List String) (book : AddressBook) : String × AddressBook :=
  match args with
  | name :: phone :: _ =>
    match book.find name with
    | some r =>
      if phone = "" then ("Contact updated.", book)
      else
        match r.add_phone phone with
        | .error e => (input_error e, book)
        | .ok r2 => ("Contact updated.", book.add_record r2)
    | none =>
      let r0 : Record := ⟨name, [], none⟩
      let book1 := book.add_record r0
      if phone = "" then ("Contact added.", book1)
      else
        match r0.add_phone phone with
        | .error e => (input_error e, book1)
        | .ok r2 => ("Contact added.", book1.add_record r2)
  | _ => (input_error PyErr.valueError, book)

/-- Handler `change_contact(args, book)`: an unknown name leaves `record`
as `None`, and the call `record.edit_phone` raises `AttributeError`;
`edit_phone` itself can raise (`ValueError` for a missing old phone or a
malformed new one). -/
def change_contact (args : List String) (book : AddressBook) : String × AddressBook :=
  match args with
  | name :: oldP :: newP :: _ =>
    match book.find name with
    | none => (input_error PyErr.attributeError, book)
    | some r =>
      match r.edit_phone oldP newP with
      | .error e => (input_error e, book)
      | .ok r2 => ("Phone number updated.", book.add_record r2)
  | _ => (input_error PyErr.valueError, book)

/-- Handler `show_birthday(args, book)`: `record.birthday` on `None`
raises `AttributeError`; a record without a birthday reports "Birthday not
set."; otherwise the stored `Birthday.value` text is returned verbatim. -/
def show_birthday (args : List String) (book : AddressBook) : String :=
  match args with
  | name :: _ =>
    match book.find name with
    | none => input_error PyErr.attributeError
    | some r =>
      match r.birthday with
      | none => "Birthday not set."
      | some b => b
  | [] => input_error PyErr.valueError

/-! ## Spec-side definitions

These follow the wording of the specification, to be compared with the
source embedding above. -/

/-- Spec side: a valid Gregorian calendar date (year 1 to 9999, the range
of four-digit years the `datetime` module supports). -/
def validGregorian (y m d : Nat) : Prop :=
  1 ≤ y ∧ y ≤ 9999 ∧ 1 ≤ m ∧ m ≤ 12 ∧ 1 ≤ d ∧ d ≤ daysInMonth y m

instance (y m d : Nat) : Decidable (validGregorian y m d) := by
  unfold validGregorian
  infer_instance

/-- Spec side, claim C8: the text is written as `day.month.year` with a
one- or two-ASCII-digit day and month and a four-ASCII-digit year, the
fields denoting the numbers `d`, `m`, `y`. -/
def claimDMY (raw : String) (y m d : Nat) : Prop :=
  ∃ ds ms ys : List Char,
    raw.toList = ds ++ ('.' :: (ms ++ ('.' :: ys))) ∧
    ds.all isAsciiDigit = true ∧ (ds.length = 1 ∨ ds.length = 2) ∧ pyInt ds = d ∧
    ms.all isAsciiDigit = true ∧ (ms.length = 1 ∨ ms.length = 2) ∧ pyInt ms = m ∧
    ys.all isAsciiDigit = true ∧ ys.length = 4 ∧ pyInt ys = y

/-- Number of entries stored under a key (spec side: the book holds
exactly one record per name). -/
def keyCount (l : List (String × Record)) (k : String) : Nat :=
  (l.filter (fun q => q.1 == k)).length

/-! ## Calendar lemmas -/

set_option maxHeartbeats 1000000 in
theorem daysBeforeYear_succ (y : Nat) (hy : 1 ≤ y) :
    daysBeforeYear (y + 1) = daysBeforeYear y + (if isLeapB y = true then 366 else 365) := by
  obtain ⟨a, rfl⟩ : ∃ a, y = a + 1 := ⟨y - 1, by omega⟩
  by_cases hL : isLeapB (a + 1) = true
  · rw [if_pos hL]
    rw [isLeapB_eq_true] at hL
    unfold daysBeforeYear
    simp only [Nat.add_sub_cancel]
    omega
  · rw [if_neg hL]
    rw [isLeapB_eq_true] at hL
    unfold daysBeforeYear
    simp only [Nat.add_sub_cancel]
    omega

theorem daysInMonth_pos (y m : Nat) (hm : 1 ≤ m) (hm12 : m ≤ 12) :
    1 ≤ daysInMonth y m := by
  interval_cases m <;> by_cases h : isLeapB y = true <;> simp [daysInMonth, h]

theorem daysInMonth_le_31 (y m : Nat) : daysInMonth y m ≤ 31 := by
  unfold daysInMonth
  by_cases h : (m = 2 && isLeapB y) = true
  · simp [h]
  · simp only [h, if_false]
    match m with
    | 0 => simp
    | 1 => simp
    | 2 => simp
    | 3 => simp
    | 4 => simp
    | 5 => simp
    | 6 => simp
    | 7 => simp
    | 8 => simp
    | 9 => simp
    | 10 => simp
    | 11 => simp
    | 12 => simp
    | n + 13 => simp

theorem daysBeforeMonth_succ (y m : Nat) (hm : 1 ≤ m) (hm11 : m ≤ 11) :
    daysBeforeMonth y (m + 1) = daysBeforeMonth y m + daysInMonth y m := by
  interval_cases m <;> by_cases h : isLeapB y = true <;>
    simp [daysBeforeMonth, daysInMonth, h]

theorem daysBeforeMonth_twelve (y : Nat) :
    daysBeforeMonth y 12 + daysInMonth y 12 = if isLeapB y = true then 366 else 365 := by
  by_cases h : isLeapB y = true <;> simp [daysBeforeMonth, daysInMonth, h]

theorem toOrdinal_nextDay (dt : PyDate) (h : dt.ValidYMD) :
    dt.nextDay.toOrdinal = dt.toOrdinal + 1 := by
  obtain ⟨hy, hm1, hm12, hd1, hdM⟩ := h
  unfold PyDate.nextDay
  by_cases hlt : dt.day < daysInMonth dt.year dt.month
  · simp [hlt, PyDate.toOrdinal]
    omega
  · have hd : dt.day = daysInMonth dt.year dt.month := by omega
    by_cases hm : dt.month < 12
    · simp [hlt, hm, PyDate.toOrdinal]
      rw [daysBeforeMonth_succ dt.year dt.month hm1 (by omega)]
      omega
    · have hm' : dt.month = 12 := by omega
      simp [hlt, hm, PyDate.toOrdinal]
      have h31 : daysInMonth dt.year 12 = 31 := by simp [daysInMonth]
      have h12 := daysBeforeMonth_twelve dt.year
      have hsucc := daysBeforeYear_succ dt.year hy
      have h1 : daysBeforeMonth (dt.year + 1) 1 = 0 := by simp [daysBeforeMonth]
      have hd31 : dt.day = 31 := by rw [hd, hm', h31]
      rw [hm', hd31, h1, hsucc]
      omega

theorem nextDay_validYMD (dt : PyDate) (h : dt.ValidYMD) : dt.nextDay.ValidYMD := by
  obtain ⟨hy, hm1, hm12, hd1, hdM⟩ := h
  unfold PyDate.nextDay
  by_cases hlt : dt.day < daysInMonth dt.year dt.month
  · simp [hlt, PyDate.ValidYMD]
    exact ⟨hy, hm1, hm12, by omega⟩
  · by_cases hm : dt.month < 12
    · simp [hlt, hm, PyDate.ValidYMD]
      refine ⟨hy, by omega, ?_⟩
      exact daysInMonth_pos dt.year (dt.month + 1) (by omega) (by omega)
    · simp [hlt, hm, PyDate.ValidYMD]
      exact daysInMonth_pos (dt.year + 1) 1 (by omega) (by omega)

/-! ## C2: weekend adjustment -/

/-- C2: for every valid date, an occurrence falling on Saturday (weekday 5)
is shifted two days forward and lands on the following Monday (weekday 0);
an occurrence falling on Sunday (weekday 6) is shifted one day forward and
lands on the following Monday; weekday occurrences are unchanged. -/
theorem weekend_adjustment (dt : PyDate) (hv : dt.ValidYMD) :
    (dt.weekday = 5 →
      adjust_for_weekend dt = dt.nextDay.nextDay ∧
      (adjust_for_weekend dt).toOrdinal = dt.toOrdinal + 2 ∧
      (adjust_for_weekend dt).weekday = 0) ∧
    (dt.weekday = 6 →
      adjust_for_weekend dt = dt.nextDay ∧
      (adjust_for_weekend dt).toOrdinal = dt.toOrdinal + 1 ∧
      (adjust_for_weekend dt).weekday = 0) ∧
    (dt.weekday < 5 → adjust_for_weekend dt = dt) := by
  refine ⟨?_, ?_, ?_⟩
  · intro h5
    have ha : adjust_for_weekend dt = dt.nextDay.nextDay := by
      simp [adjust_for_weekend, h5]
    have ho : dt.nextDay.nextDay.toOrdinal = dt.toOrdinal + 2 := by
      rw [toOrdinal_nextDay dt.nextDay (nextDay_validYMD dt hv), toOrdinal_nextDay dt hv]
    refine ⟨ha, by rw [ha, ho], ?_⟩
    rw [ha]
    unfold PyDate.weekday at h5 ⊢
    rw [ho]
    omega
  · intro h6
    have ha : adjust_for_weekend dt = dt.nextDay := by
      have : dt.weekday ≠ 5 := by omega
      simp [adjust_for_weekend, this, h6]
    have ho : dt.nextDay.toOrdinal = dt.toOrdinal + 1 := toOrdinal_nextDay dt hv
    refine ⟨ha, by rw [ha, ho], ?_⟩
    rw [ha]
    unfold PyDate.weekday at h6 ⊢
    rw [ho]
    omega
  · intro hlt
    have h5 : dt.weekday ≠ 5 := by omega
    have h6 : dt.weekday ≠ 6 := by omega
    simp [adjust_for_weekend, h5, h6]

/-- Concrete instance of `weekend_adjustment`: 04.01.2025 is a Saturday and
is adjusted to Monday 06.01.2025. -/
theorem weekend_adjustment_witness :
    PyDate.ValidYMD ⟨2025, 1, 4⟩ ∧ PyDate.weekday ⟨2025, 1, 4⟩ = 5 ∧
    adjust_for_weekend ⟨2025, 1, 4⟩ = PyDate.nextDay (PyDate.nextDay ⟨2025, 1, 4⟩) ∧
    PyDate.weekday (adjust_for_weekend ⟨2025, 1, 4⟩) = 0 := by
  have h := (weekend_adjustment ⟨2025, 1, 4⟩ (by decide)).1 (by decide)
  exact ⟨by decide, by decide, h.1, h.2.2⟩

/-! ## C1: the inclusion rule of `get_upcoming_birthdays` -/

/-- C1: for a record with a set birthday, once the stored text parses to
`bd`, this year's occurrence is `t1` and the this-year-or-next-year
normalization yields `occ`, the query emits the row for the record exactly
when the weekend-adjusted occurrence lies between today and `days` days
from today, both ends inclusive; the emitted congratulation date is the
adjusted occurrence rendered as `DD.MM.YYYY`. -/
theorem upcoming_inclusion_rule (today : PyDate) (days : Nat) (r : Record)
    (b : String) (bd t1 occ : PyDate)
    (hb : r.birthday = some b)
    (hp : strptime_dmY b = some bd)
    (h1 : bd.replaceYear today.year = .ok t1)
    (h2 : (if PyDate.ltB t1 today then t1.replaceYear (today.year + 1) else .ok t1) = .ok occ) :
    processRecord today days r =
      .ok (if 0 ≤ ((adjust_for_weekend occ).toOrdinal : Int) - (today.toOrdinal : Int) ∧
              ((adjust_for_weekend occ).toOrdinal : Int) - (today.toOrdinal : Int) ≤ (days : Int)
           then some ⟨r.name, strftime_dmY (adjust_for_weekend occ)⟩
           else none) := by
  unfold processRecord
  simp only [hb, hp, h1, h2]
  by_cases hc : 0 ≤ ((adjust_for_weekend occ).toOrdinal : Int) - (today.toOrdinal : Int) ∧
      ((adjust_for_weekend occ).toOrdinal : Int) - (today.toOrdinal : Int) ≤ (days : Int)
  · rw [if_pos hc, if_pos hc]
  · rw [if_neg hc, if_neg hc]

/-- Concrete instance of `upcoming_inclusion_rule`, the example of the
claim: birthday 01.01.2000 queried on 30.12.2024 with a 7-day window is
included with congratulation date 01.01.2025. -/
theorem upcoming_inclusion_rule_witness :
    processRecord ⟨2024, 12, 30⟩ 7 ⟨"Alice", [], some "01.01.2000"⟩ =
      .ok (some ⟨"Alice", "01.01.2025"⟩) := by
  have h := upcoming_inclusion_rule ⟨2024, 12, 30⟩ 7 ⟨"Alice", [], some "01.01.2000"⟩
    "01.01.2000" ⟨2000, 1, 1⟩ ⟨2024, 1, 1⟩ ⟨2025, 1, 1⟩ rfl (by decide) (by decide) (by decide)
  rw [h]
  decide

/-! ## C6: the Feb 29 edge case -/

theorem upcomingLoop_error_of_mem (today : PyDate) (days : Nat) (rs : List Record)
    (r : Record) (hr : r ∈ rs)
    (he : processRecord today days r = .error PyErr.valueError) :
    ∃ e, upcomingLoop today days rs = .error e := by
  induction rs with
  | nil => simp at hr
  | cons x xs ih =>
    rcases List.mem_cons.1 hr with h | h
    · subst h
      exact ⟨PyErr.valueError, by simp [upcomingLoop, he]⟩
    · cases hx : processRecord today days x with
      | error e => exact ⟨e, by simp [upcomingLoop, hx]⟩
      | ok o =>
        obtain ⟨e, hrec⟩ := ih h
        cases o with
        | none => exact ⟨e, by simp [upcomingLoop, hx, hrec]⟩
        | some v => exact ⟨e, by simp [upcomingLoop, hx, hrec]⟩

/-- C6: a record whose stored birthday parses to February 29 makes the
query fail with `ValueError` (no substitute policy such as Feb 28 or
Mar 1 is applied): `replace(year=today.year)` fails when this year is not
a leap year, and when this year is a leap year whose Feb 29 has already
passed, `replace(year=today.year + 1)` fails because the year after a leap
year is never a leap year; either way any book containing the record
yields an error instead of a result list. -/
theorem leap_day_failure (today : PyDate) (days : Nat) (r : Record) (b : String)
    (bd : PyDate) (hb : r.birthday = some b) (hp : strptime_dmY b = some bd)
    (hm : bd.month = 2) (hd : bd.day = 29) :
    (isLeapB today.year = false →
      processRecord today days r = .error PyErr.valueError) ∧
    (isLeapB today.year = true →
      PyDate.ltB ⟨today.year, 2, 29⟩ today = true →
      processRecord today days r = .error PyErr.valueError) ∧
    (isLeapB today.year = false → ∀ book : AddressBook, r ∈ book.data.map Prod.snd →
      ∃ e, book.get_upcoming_birthdays today days = .error e) := by
  have hfailv : ∀ y : Nat, isLeapB y = false → validDateB y bd.month bd.day = false := by
    intro y hy
    have h28 : daysInMonth y 2 = 28 := by simp [daysInMonth, hy]
    rw [hm, hd]
    simp [validDateB, h28]
  have hc1 : isLeapB today.year = false →
      processRecord today days r = .error PyErr.valueError := by
    intro hy
    unfold processRecord
    simp only [hb, hp]
    simp [PyDate.replaceYear, hfailv today.year hy]
  refine ⟨hc1, ?_, ?_⟩
  · intro hy hlt
    unfold processRecord
    simp only [hb, hp]
    by_cases hv : validDateB today.year bd.month bd.day = true
    · have ht1 : bd.replaceYear today.year = .ok ⟨today.year, bd.month, bd.day⟩ := by
        simp [PyDate.replaceYear, hv]
      have hnext : isLeapB (today.year + 1) = false := by
        rw [isLeapB_eq_true] at hy
        rw [isLeapB_eq_false]
        omega
      have hlt' : PyDate.ltB ⟨today.year, bd.month, bd.day⟩ today = true := by
        rw [hm, hd]
        exact hlt
      simp only [ht1, hlt', if_true]
      simp [PyDate.replaceYear, hfailv (today.year + 1) hnext]
    · have ht1 : bd.replaceYear today.year = .error PyErr.valueError := by
        simp [PyDate.replaceYear, hv]
      simp only [ht1]
  · intro hy book hmem
    exact upcomingLoop_error_of_mem today days (book.data.map Prod.snd) r hmem (hc1 hy)

/-- Concrete instance of `leap_day_failure`: birthday 29.02.2020 queried
with today = 01.06.2025 (2025 is not a leap year) makes the query fail. -/
theorem leap_day_failure_witness :
    processRecord ⟨2025, 6, 1⟩ 7 ⟨"Kate", [], some "29.02.2020"⟩ = .error PyErr.valueError ∧
    ∃ e, AddressBook.get_upcoming_birthdays ⟨[("Kate", ⟨"Kate", [], some "29.02.2020"⟩)]⟩
      ⟨2025, 6, 1⟩ 7 = .error e := by
  have h := leap_day_failure ⟨2025, 6, 1⟩ 7 ⟨"Kate", [], some "29.02.2020"⟩ "29.02.2020"
    ⟨2020, 2, 29⟩ rfl (by decide) rfl rfl
  exact ⟨h.1 (by decide), h.2.2 (by decide) ⟨[("Kate", ⟨"Kate", [], some "29.02.2020"⟩)]⟩ (by decide)⟩

/-! ## Dictionary lemmas -/

theorem find?_dictSet (l : List (String × Record)) (k : String) (v : Record) :
    (dictSet l k v).find? (fun q => q.1 == k) = some (k, v) := by
  induction l with
  | nil => simp [dictSet]
  | cons p rest ih =>
    obtain ⟨k1, v1⟩ := p
    by_cases h : (k1 == k) = true
    · simp [dictSet, h]
    · simp [dictSet, h]
      exact ih

theorem find_add_record (book : AddressBook) (r : Record) :
    (book.add_record r).find r.name = some r := by
  simp [AddressBook.add_record, AddressBook.find, find?_dictSet]

theorem keyCount_eq_zero_of_find_none (book : AddressBook) (k : String)
    (h : book.find k = none) : keyCount book.data k = 0 := by
  cases hfq : book.data.find? (fun q => q.1 == k) with
  | some p => simp [AddressBook.find, hfq] at h
  | none =>
    rw [List.find?_eq_none] at hfq
    unfold keyCount
    rw [List.filter_eq_nil_iff.2 hfq]
    rfl

theorem keyCount_dictSet (l : List (String × Record)) (k : String) (v : Record) :
    keyCount (dictSet l k v) k = if keyCount l k = 0 then 1 else keyCount l k := by
  induction l with
  | nil => simp [dictSet, keyCount]
  | cons p rest ih =>
    obtain ⟨k1, v1⟩ := p
    by_cases h : (k1 == k) = true
    · simp [dictSet, h, keyCount, List.filter_cons]
    · have hh : List.filter (fun q => q.1 == k) ((k1, v1) :: rest) =
          List.filter (fun q => q.1 == k) rest := by
        simp [List.filter_cons, h]
      simp [dictSet, h, keyCount, hh] at ih ⊢
      rw [hh]
      exact ih

/-! ## C7: `add_contact` twice with the same name -/

/-- C7: the first `add` of an unknown name creates the record and reports
"Contact added."; a second `add` with the same name reuses that record and
reports "Contact updated."; afterwards the book holds exactly one record
under the name, containing both phones in order. -/
theorem add_contact_twice (book : AddressBook) (name p1 p2 : String)
    (hfind : book.find name = none) (hp1 : Phone.init p1 = .ok p1)
    (hp2 : Phone.init p2 = .ok p2) (hne1 : p1 ≠ "") (hne2 : p2 ≠ "") :
    (add_contact [name, p1] book).1 = "Contact added." ∧
    (add_contact [name, p2] (add_contact [name, p1] book).2).1 = "Contact updated." ∧
    (add_contact [name, p2] (add_contact [name, p1] book).2).2.find name =
      some ⟨name, [p1, p2], none⟩ ∧
    keyCount (add_contact [name, p2] (add_contact [name, p1] book).2).2.data name = 1 := by
  have h1 : add_contact [name, p1] book =
      ("Contact added.",
        ⟨dictSet (dictSet book.data name ⟨name, [], none⟩) name ⟨name, [p1], none⟩⟩) := by
    simp [add_contact, hfind, hne1, Record.add_phone, hp1, AddressBook.add_record]
  have hb1 : (AddressBook.mk
      (dictSet (dictSet book.data name ⟨name, [], none⟩) name ⟨name, [p1], none⟩)).find name =
      some ⟨name, [p1], none⟩ := by
    simp [AddressBook.find, find?_dictSet]
  have h2 : add_contact [name, p2]
      (⟨dictSet (dictSet book.data name ⟨name, [], none⟩) name ⟨name, [p1], none⟩⟩ : AddressBook) =
      ("Contact updated.",
        ⟨dictSet (dictSet (dictSet book.data name ⟨name, [], none⟩) name ⟨name, [p1], none⟩)
          name ⟨name, [p1, p2], none⟩⟩) := by
    simp [add_contact, hb1, hne2, Record.add_phone, hp2, AddressBook.add_record]
  have hkc0 : keyCount book.data name = 0 := keyCount_eq_zero_of_find_none book name hfind
  rw [h1]
  simp only []
  rw [h2]
  refine ⟨trivial, rfl, ?_, ?_⟩
  · simp [AddressBook.find, find?_dictSet]
  · rw [keyCount_dictSet, keyCount_dictSet, keyCount_dictSet, hkc0]
    simp

/-- Concrete instance of `add_contact_twice`. -/
theorem add_contact_twice_witness :
    (add_contact ["Alice", "1111111111"] ⟨[]⟩).1 = "Contact added." ∧
    (add_contact ["Alice", "2222222222"] (add_contact ["Alice", "1111111111"] ⟨[]⟩).2).1 =
      "Contact updated." ∧
    (add_contact ["Alice", "2222222222"] (add_contact ["Alice", "1111111111"] ⟨[]⟩).2).2.find
      "Alice" = some ⟨"Alice", ["1111111111", "2222222222"], none⟩ ∧
    keyCount (add_contact ["Alice", "2222222222"]
      (add_contact ["Alice", "1111111111"] ⟨[]⟩).2).2.data "Alice" = 1 :=
  add_contact_twice ⟨[]⟩ "Alice" "1111111111" "2222222222" rfl (by decide) (by decide)
    (by decide) (by decide)

/-! ## C10: `add_contact` is not atomic on a validation error -/

/-- C10: when the name is unknown and the phone text fails validation, the
handler reports "Provide correct data." and the freshly created record,
with its empty phone list, is nevertheless left inserted in the book. -/
theorem add_contact_not_atomic (book : AddressBook) (name phone : String)
    (hfind : book.find name = none) (hne : phone ≠ "")
    (hbad : Phone.init phone = .error PyErr.valueError) :
    add_contact [name, phone] book =
      ("Provide correct data.", book.add_record ⟨name, [], none⟩) ∧
    (book.add_record ⟨name, [], none⟩).find name = some ⟨name, [], none⟩ := by
  constructor
  · simp [add_contact, hfind, hne, Record.add_phone, hbad, input_error]
  · exact find_add_record book ⟨name, [], none⟩

/-- Concrete instance of `add_contact_not_atomic`: adding "Bob" with the
malformed phone "123" to the empty book. -/
theorem add_contact_not_atomic_witness :
    add_contact ["Bob", "123"] ⟨[]⟩ =
      ("Provide correct data.", AddressBook.add_record ⟨[]⟩ ⟨"Bob", [], none⟩) ∧
    (AddressBook.add_record ⟨[]⟩ ⟨"Bob", [], none⟩).find "Bob" = some ⟨"Bob", [], none⟩ :=
  add_contact_not_atomic ⟨[]⟩ "Bob" "123" rfl (by decide) (by decide)

/-! ## C5: handler error translation for `change_contact` -/

/-- Counterexample to claim C5: on a book holding "Alice" with phone
1111111111, changing a phone she does not have yields "Provide correct
data." (the `ValueError` message), not "Contact not found.". -/
theorem change_contact_missing_phone_cex :
    (change_contact ["Alice", "2222222222", "3333333333"]
      ⟨[("Alice", ⟨"Alice", ["1111111111"], none⟩)]⟩).1 = "Provide correct data." ∧
    "Provide correct data." ≠ "Contact not found." := by
  constructor
  · rfl
  · decide

/-- C5 (amended): errors never escape `change_contact` (the handler is a
total function into result strings); an unknown contact name is reported
as "Contact not found." (the `AttributeError` path), while an existing
contact with no phone equal to `oldPhone` is reported as "Provide correct
data.", because `edit_phone` signals the missing phone with `ValueError`;
in both failure cases the book is unchanged. -/
theorem change_contact_error_translation (book : AddressBook)
    (name oldP newP : String) (rest : List String) :
    (book.find name = none →
      change_contact (name :: oldP :: newP :: rest) book = ("Contact not found.", book)) ∧
    (∀ r, book.find name = some r → r.find_phone oldP = none →
      change_contact (name :: oldP :: newP :: rest) book = ("Provide correct data.", book)) := by
  constructor
  · intro h
    simp [change_contact, h, input_error]
  · intro r hr hph
    simp [change_contact, hr, Record.edit_phone, hph, input_error]

/-- Concrete instance of `change_contact_error_translation`: both failure
modes at concrete inputs. -/
theorem change_contact_error_translation_witness :
    change_contact ["Zed", "1111111111", "2222222222"] ⟨[]⟩ = ("Contact not found.", ⟨[]⟩) ∧
    change_contact ["Alice", "2222222222", "3333333333"]
      ⟨[("Alice", ⟨"Alice", ["1111111111"], none⟩)]⟩ =
      ("Provide correct data.", ⟨[("Alice", ⟨"Alice", ["1111111111"], none⟩)]⟩) :=
  ⟨(change_contact_error_translation ⟨[]⟩ "Zed" "1111111111" "2222222222" []).1 rfl,
   (change_contact_error_translation ⟨[("Alice", ⟨"Alice", ["1111111111"], none⟩)]⟩
      "Alice" "2222222222" "3333333333" []).2 ⟨"Alice", ["1111111111"], none⟩ rfl rfl⟩

/-! ## C4: `edit_phone` -/

/-- Counterexample to claim C4: when no phone equals the old value,
`edit_phone` raises `ValueError`, the error kind the handler layer reports
as "Provide correct data."; it is not the kind reported as "Contact not
found." (the message of `KeyError` and `AttributeError`). -/
theorem edit_phone_error_kind_cex :
    Record.edit_phone ⟨"Alice", ["1111111111"], none⟩ "2222222222" "3333333333" =
      .error PyErr.valueError ∧
    input_error PyErr.valueError = "Provide correct data." ∧
    input_error PyErr.keyError = "Contact not found." ∧
    "Provide correct data." ≠ "Contact not found." := by
  refine ⟨rfl, rfl, rfl, by decide⟩

/-- C4 (amended): if no phone equals `oldRaw`, `edit_phone` fails with
`ValueError` (reported by the handler layer as malformed data, not as a
missing contact) and the record is unchanged; otherwise it validates
`newRaw` and replaces the value at the matching position in place,
preserving the rest of the list. -/
theorem edit_phone_behavior (r : Record) (oldP newP : String) :
    (r.find_phone oldP = none → r.edit_phone oldP newP = .error PyErr.valueError) ∧
    (∀ i, r.find_phone oldP = some i → ∀ v, Phone.init newP = .ok v →
      r.edit_phone oldP newP = .ok { r with phones := r.phones.set i v }) := by
  constructor
  · intro h
    simp [Record.edit_phone, h]
  · intro i hi v hv
    simp [Record.edit_phone, hi, hv]

/-- Concrete instance of `edit_phone_behavior`, the example of the claim:
editing 1111111111 to 3333333333 in [1111111111, 2222222222] yields
[3333333333, 2222222222]. -/
theorem edit_phone_behavior_witness :
    Record.edit_phone ⟨"Ann", ["1111111111", "2222222222"], none⟩ "1111111111" "3333333333" =
      .ok ⟨"Ann", ["3333333333", "2222222222"], none⟩ := by
  have h := (edit_phone_behavior ⟨"Ann", ["1111111111", "2222222222"], none⟩
    "1111111111" "3333333333").2 0 (by decide) "3333333333" (by decide)
  simpa using h

/-! ## C3: phone validation -/

/-- Counterexample to claim C3: the ten-character string ending in a
fullwidth zero (U+FF10) is not made of ASCII digits, yet `str.isdigit`
accepts it and the `Phone` constructor succeeds. -/
theorem phone_nonascii_digits_cex :
    Phone.init "123456789０" = .ok "123456789０" ∧
    "123456789０".toList.all isAsciiDigit = false := by
  constructor
  · decide
  · decide

/-- C3 (amended): `Phone` construction succeeds exactly when the text has
ten characters all accepted by the Unicode-aware `str.isdigit` — a strict
superset of the ten-ASCII-digit strings — and fails with `ValueError`
otherwise. -/
theorem phone_validation_amended (raw : String) :
    (Phone.init raw = .ok raw ↔ (raw.length = 10 ∧ raw.toList.all py_isdigit = true)) ∧
    (¬ (raw.length = 10 ∧ raw.toList.all py_isdigit = true) →
      Phone.init raw = .error PyErr.valueError) := by
  have hl : raw.toList.length = raw.length := rfl
  by_cases h2 : raw.length = 10 <;> by_cases h3 : raw.toList.all py_isdigit = true
  · have hne : raw.toList.isEmpty = false := by
      cases hl2 : raw.toList with
      | nil => exfalso; rw [hl2] at hl; simp at hl; omega
      | cons a as => rfl
    have hsd : pyStrIsdigit raw = true := by
      unfold pyStrIsdigit
      rw [hne, h3]
      rfl
    have hinit : Phone.init raw = .ok raw := by
      unfold Phone.init
      rw [hsd, h2]
      simp
    exact ⟨⟨fun _ => ⟨h2, h3⟩, fun _ => hinit⟩, fun hc => absurd ⟨h2, h3⟩ hc⟩
  · have h3' : raw.toList.all py_isdigit = false := by
      revert h3
      cases raw.toList.all py_isdigit <;> simp
    have hsd : pyStrIsdigit raw = false := by
      unfold pyStrIsdigit
      rw [h3']
      simp
    have hinit : Phone.init raw = .error PyErr.valueError := by
      unfold Phone.init
      rw [hsd]
      simp
    refine ⟨⟨fun h => ?_, fun hc => absurd hc.2 (by rw [h3']; simp)⟩, fun _ => hinit⟩
    rw [hinit] at h
    exact absurd h (by simp)
  · have hinit : Phone.init raw = .error PyErr.valueError := by
      unfold Phone.init
      have hb : (raw.length != 10) = true := by simp [h2]
      rw [hb]
      simp
    refine ⟨⟨fun h => ?_, fun hc => absurd hc.1 h2⟩, fun _ => hinit⟩
    rw [hinit] at h
    exact absurd h (by simp)
  · have hinit : Phone.init raw = .error PyErr.valueError := by
      unfold Phone.init
      have hb : (raw.length != 10) = true := by simp [h2]
      rw [hb]
      simp
    refine ⟨⟨fun h => ?_, fun hc => absurd hc.1 h2⟩, fun _ => hinit⟩
    rw [hinit] at h
    exact absurd h (by simp)

/-- Concrete instance of `phone_validation_amended`: a ten-ASCII-digit
string is accepted, a nine-digit one is rejected. -/
theorem phone_validation_amended_witness :
    Phone.init "1234567890" = .ok "1234567890" ∧
    Phone.init "123456789" = .error PyErr.valueError :=
  ⟨(phone_validation_amended "1234567890").1.mpr (by decide),
   (phone_validation_amended "123456789").2 (by decide)⟩

/-! ## C9: birthday rendering -/

/-- Counterexample to claim C9: "1.1.2000" is accepted by the `Birthday`
constructor and rendered verbatim by `show_birthday`, which is not the
canonical two-digit-day, two-digit-month form 01.01.2000. -/
theorem birthday_render_cex :
    Birthday.init "1.1.2000" = .ok "1.1.2000" ∧
    strptime_dmY "1.1.2000" = some ⟨2000, 1, 1⟩ ∧
    strftime_dmY ⟨2000, 1, 1⟩ = "01.01.2000" ∧
    show_birthday ["Ann"] ⟨[("Ann", ⟨"Ann", [], some "1.1.2000"⟩)]⟩ = "1.1.2000" ∧
    "1.1.2000" ≠ ("01.01.2000" : String) := by
  refine ⟨by decide, by decide, by decide, by decide, by decide⟩

/-- C9 (amended): the rendering of a stored birthday is the accepted input
text verbatim — `show_birthday` returns the stored string unchanged, and
the constructor stores exactly the string it was given — so the output is
canonical `DD.MM.YYYY` only when the input was written that way. -/
theorem birthday_render_verbatim (book : AddressBook) (name b raw : String) (r : Record)
    (hfind : book.find name = some r) (hb : r.birthday = some b) :
    show_birthday [name] book = b ∧ (∀ v, Birthday.init raw = .ok v → v = raw) := by
  constructor
  · simp [show_birthday, hfind, hb]
  · intro v hv
    unfold Birthday.init at hv
    cases h : strptime_dmY raw with
    | none => simp [h] at hv
    | some d =>
      simp [h] at hv
      exact hv.symm

/-- Concrete instance of `birthday_render_verbatim` at the single-digit
date text "1.1.2000". -/
theorem birthday_render_verbatim_witness :
    show_birthday ["Ann"] ⟨[("Ann", ⟨"Ann", [], some "1.1.2000"⟩)]⟩ = "1.1.2000" ∧
    (∀ v, Birthday.init "1.1.2000" = .ok v → v = "1.1.2000") :=
  birthday_render_verbatim ⟨[("Ann", ⟨"Ann", [], some "1.1.2000"⟩)]⟩ "Ann" "1.1.2000"
    "1.1.2000" ⟨"Ann", [], some "1.1.2000"⟩ (by decide) rfl

/-! ## C8: lemmas about `splitDots` and the field matchers -/

theorem splitDots_ne_nil (cs : List Char) : splitDots cs ≠ [] := by
  induction cs with
  | nil => simp [splitDots]
  | cons c rest ih =>
    unfold splitDots
    cases h : splitDots rest with
    | nil => simp
    | cons g gs => by_cases hc : c = '.' <;> simp [hc]

theorem joinDots_splitDots (cs : List Char) : joinDots (splitDots cs) = cs := by
  induction cs with
  | nil => rfl
  | cons c rest ih =>
    unfold splitDots
    cases h : splitDots rest with
    | nil => exact absurd h (splitDots_ne_nil rest)
    | cons g gs =>
      rw [h] at ih
      by_cases hc : c = '.'
      · subst hc
        simp only [if_pos rfl]
        show joinDots ([] :: g :: gs) = '.' :: rest
        rw [show joinDots ([] :: g :: gs) = [] ++ '.' :: joinDots (g :: gs) from rfl, ih]
        rfl
      · simp only [if_neg hc]
        show joinDots ((c :: g) :: gs) = c :: rest
        cases gs with
        | nil =>
          show c :: g = c :: rest
          rw [show joinDots [g] = g from rfl] at ih
          rw [ih]
        | cons g2 gs2 =>
          show (c :: g) ++ '.' :: joinDots (g2 :: gs2) = c :: rest
          rw [show joinDots (g :: g2 :: gs2) = g ++ '.' :: joinDots (g2 :: gs2) from rfl] at ih
          rw [← ih]
          rfl

theorem splitDots_append (a rest : List Char) (ha : '.' ∉ a) :
    splitDots (a ++ '.' :: rest) = a :: splitDots rest := by
  induction a with
  | nil =>
    simp only [List.nil_append]
    cases h : splitDots rest with
    | nil => exact absurd h (splitDots_ne_nil rest)
    | cons g gs =>
      conv_lhs => rw [splitDots]
      rw [h]
      simp
  | cons x xs ih =>
    have hx : x ≠ '.' := fun hx => ha (hx ▸ List.mem_cons_self x xs)
    have hxs : '.' ∉ xs := fun hm => ha (List.mem_cons_of_mem x hm)
    simp only [List.cons_append]
    conv_lhs => rw [splitDots]
    rw [ih hxs]
    simp [hx]

theorem splitDots_no_dot (a : List Char) (ha : '.' ∉ a) : splitDots a = [a] := by
  induction a with
  | nil => rfl
  | cons x xs ih =>
    have hx : x ≠ '.' := fun hx => ha (hx ▸ List.mem_cons_self x xs)
    have hxs : '.' ∉ xs := fun hm => ha (List.mem_cons_of_mem x hm)
    conv_lhs => rw [splitDots]
    rw [ih hxs]
    simp [hx]

theorem isAsciiDigit_eq_true (c : Char) :
    isAsciiDigit c = true ↔ (48 ≤ c.toNat ∧ c.toNat ≤ 57) := by
  simp [isAsciiDigit, Bool.and_eq_true]

theorem isNd_of_ascii (c : Char) (h : isAsciiDigit c = true) : isNd c = true := by
  unfold isNd
  rw [h]
  rfl

theorem isAsciiDigit_of_isNd_lt128 (c : Char) (h : isNd c = true)
    (hlt : c.toNat < 128) : isAsciiDigit c = true := by
  unfold isNd at h
  rw [Bool.or_eq_true] at h
  rcases h with h1 | h2
  · exact h1
  · exfalso
    rw [List.any_eq_true] at h2
    obtain ⟨b, hb, hcond⟩ := h2
    rw [Bool.and_eq_true, decide_eq_true_eq, decide_eq_true_eq] at hcond
    have hall : ∀ x ∈ ndBasesSupp, 1632 ≤ x := by decide
    have := hall b hb
    omega

theorem ndVal_ascii (c : Char) (h : isAsciiDigit c = true) : ndVal c = c.toNat - 48 := by
  simp [ndVal, h]

theorem ascii_ne_dot (c : Char) (h : isAsciiDigit c = true) : c ≠ '.' := by
  intro heq
  subst heq
  revert h
  decide

theorem matchDay_fields (ds : List Char) (h : matchDay ds = true)
    (hascii : ∀ c ∈ ds, c.toNat < 128) :
    ds.all isAsciiDigit = true ∧ (ds.length = 1 ∨ ds.length = 2) := by
  match ds with
  | [] => simp [matchDay] at h
  | [c] =>
    unfold matchDay at h
    rw [Bool.and_eq_true, decide_eq_true_eq, decide_eq_true_eq] at h
    refine ⟨?_, Or.inl rfl⟩
    have : isAsciiDigit c = true := by
      rw [isAsciiDigit_eq_true]
      omega
    simp [this]
  | [c1, c2] =>
    unfold matchDay at h
    simp only [Bool.or_eq_true, Bool.and_eq_true, beq_iff_eq, decide_eq_true_eq] at h
    have h2lt : c2.toNat < 128 := hascii c2 (by simp)
    rcases h with (⟨h1a, h1b⟩ | ⟨h2a, h2b⟩) | ⟨⟨h3a, h3b⟩, h3c⟩
    · have ha1 : isAsciiDigit c1 = true := by rw [isAsciiDigit_eq_true]; omega
      have ha2 : isAsciiDigit c2 = true := by rw [isAsciiDigit_eq_true]; omega
      exact ⟨by simp [ha1, ha2], Or.inr rfl⟩
    · have ha1 : isAsciiDigit c1 = true := by rw [isAsciiDigit_eq_true]; omega
      have ha2 : isAsciiDigit c2 = true := isAsciiDigit_of_isNd_lt128 c2 h2b h2lt
      exact ⟨by simp [ha1, ha2], Or.inr rfl⟩
    · have ha1 : isAsciiDigit c1 = true := by rw [isAsciiDigit_eq_true]; omega
      have ha2 : isAsciiDigit c2 = true := by rw [isAsciiDigit_eq_true]; omega
      exact ⟨by simp [ha1, ha2], Or.inr rfl⟩
  | c1 :: c2 :: c3 :: t => simp [matchDay] at h

theorem matchMonth_fields (ms : List Char) (h : matchMonth ms = true) :
    ms.all isAsciiDigit = true ∧ (ms.length = 1 ∨ ms.length = 2) := by
  match ms with
  | [] => simp [matchMonth] at h
  | [c] =>
    unfold matchMonth at h
    rw [Bool.and_eq_true, decide_eq_true_eq, decide_eq_true_eq] at h
    have : isAsciiDigit c = true := by
      rw [isAsciiDigit_eq_true]
      omega
    exact ⟨by simp [this], Or.inl rfl⟩
  | [c1, c2] =>
    unfold matchMonth at h
    simp only [Bool.or_eq_true, Bool.and_eq_true, beq_iff_eq, decide_eq_true_eq] at h
    rcases h with ⟨⟨h1a, h1b⟩, h1c⟩ | ⟨⟨h2a, h2b⟩, h2c⟩ <;>
    · have ha1 : isAsciiDigit c1 = true := by rw [isAsciiDigit_eq_true]; omega
      have ha2 : isAsciiDigit c2 = true := by rw [isAsciiDigit_eq_true]; omega
      exact ⟨by simp [ha1, ha2], Or.inr rfl⟩
  | c1 :: c2 :: c3 :: t => simp [matchMonth] at h

theorem matchYear_fields (ys : List Char) (h : matchYear ys = true)
    (hascii : ∀ c ∈ ys, c.toNat < 128) :
    ys.all isAsciiDigit = true ∧ ys.length = 4 := by
  unfold matchYear at h
  rw [Bool.and_eq_true, beq_iff_eq] at h
  obtain ⟨hlen, hall⟩ := h
  rw [List.all_eq_true] at hall
  refine ⟨?_, hlen⟩
  rw [List.all_eq_true]
  intro c hc
  exact isAsciiDigit_of_isNd_lt128 c (hall c hc) (hascii c hc)

theorem pyInt_one_ascii (c : Char) (h : isAsciiDigit c = true) :
    pyInt [c] = c.toNat - 48 := by
  simp [pyInt, ndVal_ascii c h]

theorem pyInt_two_ascii (c1 c2 : Char) (h1 : isAsciiDigit c1 = true)
    (h2 : isAsciiDigit c2 = true) :
    pyInt [c1, c2] = 10 * (c1.toNat - 48) + (c2.toNat - 48) := by
  simp [pyInt, ndVal_ascii c1 h1, ndVal_ascii c2 h2]

theorem matchDay_of_ascii (ds : List Char) (hall : ds.all isAsciiDigit = true)
    (hlen : ds.length = 1 ∨ ds.length = 2) (hlo : 1 ≤ pyInt ds) (hhi : pyInt ds ≤ 31) :
    matchDay ds = true := by
  match ds with
  | [] => simp at hlen
  | [c] =>
    have hc : isAsciiDigit c = true := by simpa using hall
    rw [pyInt_one_ascii c hc] at hlo hhi
    rw [isAsciiDigit_eq_true] at hc
    unfold matchDay
    rw [Bool.and_eq_true, decide_eq_true_eq, decide_eq_true_eq]
    omega
  | [c1, c2] =>
    have hc : isAsciiDigit c1 = true ∧ isAsciiDigit c2 = true := by simpa using hall
    obtain ⟨hc1, hc2⟩ := hc
    rw [pyInt_two_ascii c1 c2 hc1 hc2] at hlo hhi
    have hnd2 : isNd c2 = true := isNd_of_ascii c2 hc2
    rw [isAsciiDigit_eq_true] at hc1 hc2
    unfold matchDay
    simp only [Bool.or_eq_true, Bool.and_eq_true, beq_iff_eq, decide_eq_true_eq, hnd2,
      and_true]
    omega
  | c1 :: c2 :: c3 :: t => simp at hlen
theorem matchMonth_of_ascii (ms : List Char) (hall : ms.all isAsciiDigit = true)
    (hlen : ms.length = 1 ∨ ms.length = 2) (hlo : 1 ≤ pyInt ms) (hhi : pyInt ms ≤ 12) :
    matchMonth ms = true := by
  match ms with
  | [] => simp at hlen
  | [c] =>
    have hc : isAsciiDigit c = true := by simpa using hall
    rw [pyInt_one_ascii c hc] at hlo hhi
    rw [isAsciiDigit_eq_true] at hc
    unfold matchMonth
    rw [Bool.and_eq_true, decide_eq_true_eq, decide_eq_true_eq]
    omega
  | [c1, c2] =>
    have hc : isAsciiDigit c1 = true ∧ isAsciiDigit c2 = true := by simpa using hall
    obtain ⟨hc1, hc2⟩ := hc
    rw [pyInt_two_ascii c1 c2 hc1 hc2] at hlo hhi
    rw [isAsciiDigit_eq_true] at hc1 hc2
    unfold matchMonth
    simp only [Bool.or_eq_true, Bool.and_eq_true, beq_iff_eq, decide_eq_true_eq]
    omega
  | c1 :: c2 :: c3 :: t => simp at hlen

theorem matchYear_of_ascii (ys : List Char) (hall : ys.all isAsciiDigit = true)
    (hlen : ys.length = 4) : matchYear ys = true := by
  unfold matchYear
  rw [Bool.and_eq_true, beq_iff_eq]
  refine ⟨hlen, ?_⟩
  rw [List.all_eq_true] at hall ⊢
  intro c hc
  exact isNd_of_ascii c (hall c hc)

theorem validDateB_eq_true (y m d : Nat) :
    validDateB y m d = true ↔ validGregorian y m d := by
  simp [validDateB, validGregorian, Bool.and_eq_true, and_assoc]

theorem strptime_some_inv (s : String) (dt : PyDate) (h : strptime_dmY s = some dt) :
    ∃ ds ms ys, splitDots s.toList = [ds, ms, ys] ∧
      matchDay ds = true ∧ matchMonth ms = true ∧ matchYear ys = true ∧
      validDateB (pyInt ys) (pyInt ms) (pyInt ds) = true ∧
      dt = ⟨pyInt ys, pyInt ms, pyInt ds⟩ := by
  unfold strptime_dmY at h
  cases hs : splitDots s.toList with
  | nil => rw [hs] at h; simp at h
  | cons ds t1 =>
    cases t1 with
    | nil => rw [hs] at h; simp at h
    | cons ms t2 =>
      cases t2 with
      | nil => rw [hs] at h; simp at h
      | cons ys t3 =>
        cases t3 with
        | cons w ws => rw [hs] at h; simp at h
        | nil =>
          rw [hs] at h
          simp only [] at h
          by_cases hm : (matchDay ds && matchMonth ms && matchYear ys) = true
          · rw [if_pos hm] at h
            by_cases hv : validDateB (pyInt ys) (pyInt ms) (pyInt ds) = true
            · rw [if_pos hv] at h
              rw [Bool.and_eq_true, Bool.and_eq_true] at hm
              exact ⟨ds, ms, ys, rfl, hm.1.1, hm.1.2, hm.2, hv, (Option.some.inj h).symm⟩
            · rw [if_neg hv] at h
              simp at h
          · rw [if_neg hm] at h
            simp at h

/-- Counterexample to claim C8: the text 01.01.200０ — whose year field
ends with the fullwidth zero U+FF10 — is accepted by the `Birthday`
constructor (CPython `\d` matches any Unicode decimal digit and `int()`
converts it), yet it is not a day.month.year rendering in (ASCII) digits
of any Gregorian date. -/
theorem birthday_nonascii_year_cex :
    Birthday.init "01.01.200０" = .ok "01.01.200０" ∧
    ¬ ∃ y m d, claimDMY "01.01.200０" y m d ∧ validGregorian y m d := by
  constructor
  · decide
  · rintro ⟨y, m, d, ⟨ds, ms, ys, heq, hda, -, -, hma, -, -, hya, -, -⟩, -⟩
    have hmem : (Char.ofNat 0xFF10) ∈ "01.01.200０".toList := by decide
    rw [heq] at hmem
    have hne : isAsciiDigit (Char.ofNat 0xFF10) = false := by decide
    have hdot : (Char.ofNat 0xFF10) ≠ '.' := by decide
    rcases List.mem_append.1 hmem with h | h
    · have := (List.all_eq_true.1 hda) _ h
      rw [hne] at this
      exact Bool.noConfusion this
    · rcases List.mem_cons.1 h with h1 | h1
      · exact hdot h1
      · rcases List.mem_append.1 h1 with h2 | h2
        · have := (List.all_eq_true.1 hma) _ h2
          rw [hne] at this
          exact Bool.noConfusion this
        · rcases List.mem_cons.1 h2 with h3 | h3
          · exact hdot h3
          · have := (List.all_eq_true.1 hya) _ h3
            rw [hne] at this
            exact Bool.noConfusion this

/-- C8 (amended): for text made of ASCII characters, `Birthday`
construction succeeds exactly when the text is a `day.month.year`
rendering — one- or two-digit day and month, four-digit year — of a valid
Gregorian calendar date; in particular "29.02.2021" fails (2021 is not a
leap year) and "29.02.2020" succeeds.  Non-ASCII Unicode decimal digits
are additionally accepted in the `\d` positions of the CPython pattern
(see the counterexample). -/
theorem birthday_validation (raw : String)
    (hascii : ∀ c ∈ raw.toList, c.toNat < 128) :
    ((∃ v, Birthday.init raw = .ok v) ↔
      ∃ y m d, claimDMY raw y m d ∧ validGregorian y m d) ∧
    Birthday.init "29.02.2021" = .error PyErr.valueError ∧
    Birthday.init "29.02.2020" = .ok "29.02.2020" := by
  refine ⟨⟨?_, ?_⟩, by decide, by decide⟩
  · rintro ⟨v, hv⟩
    unfold Birthday.init at hv
    cases hsome : strptime_dmY raw with
    | none =>
      rw [hsome] at hv
      exact absurd hv (by simp)
    | some dt =>
      obtain ⟨ds, ms, ys, hsplit, hd, hm, hy, hvd, -⟩ := strptime_some_inv raw dt hsome
      have heq : raw.toList = ds ++ ('.' :: (ms ++ ('.' :: ys))) := by
        conv_lhs => rw [← joinDots_splitDots raw.toList, hsplit]
        rfl
      have hdascii : ∀ c ∈ ds, c.toNat < 128 := fun c hc =>
        hascii c (by rw [heq]; exact List.mem_append.2 (Or.inl hc))
      have hyascii : ∀ c ∈ ys, c.toNat < 128 := by
        intro c hc
        refine hascii c ?_
        rw [heq]
        refine List.mem_append.2 (Or.inr ?_)
        refine List.mem_cons_of_mem _ ?_
        exact List.mem_append.2 (Or.inr (List.mem_cons_of_mem _ hc))
      obtain ⟨hdall, hdlen⟩ := matchDay_fields ds hd hdascii
      obtain ⟨hmall, hmlen⟩ := matchMonth_fields ms hm
      obtain ⟨hyall, hylen⟩ := matchYear_fields ys hy hyascii
      exact ⟨pyInt ys, pyInt ms, pyInt ds,
        ⟨ds, ms, ys, heq, hdall, hdlen, rfl, hmall, hmlen, rfl, hyall, hylen, rfl⟩,
        (validDateB_eq_true _ _ _).1 hvd⟩
  · rintro ⟨y, m, d, ⟨ds, ms, ys, heq, hdall, hdlen, hdv, hmall, hmlen, hmv,
      hyall, hylen, hyv⟩, hval⟩
    have hddot : '.' ∉ ds := fun hm' =>
      ascii_ne_dot _ ((List.all_eq_true.1 hdall) _ hm') rfl
    have hmdot : '.' ∉ ms := fun hm' =>
      ascii_ne_dot _ ((List.all_eq_true.1 hmall) _ hm') rfl
    have hydot : '.' ∉ ys := fun hm' =>
      ascii_ne_dot _ ((List.all_eq_true.1 hyall) _ hm') rfl
    have hsplit : splitDots raw.toList = [ds, ms, ys] := by
      rw [heq, splitDots_append ds _ hddot, splitDots_append ms _ hmdot,
        splitDots_no_dot ys hydot]
    obtain ⟨h1, h2, h3, h4, h5, h6⟩ := hval
    have hd31 : d ≤ 31 := le_trans h6 (daysInMonth_le_31 y m)
    have hmd : matchDay ds = true :=
      matchDay_of_ascii ds hdall hdlen (by rw [hdv]; exact h5) (by rw [hdv]; exact hd31)
    have hmm : matchMonth ms = true :=
      matchMonth_of_ascii ms hmall hmlen (by rw [hmv]; exact h3) (by rw [hmv]; exact h4)
    have hmy : matchYear ys = true := matchYear_of_ascii ys hyall hylen
    have hvd : validDateB (pyInt ys) (pyInt ms) (pyInt ds) = true := by
      rw [hdv, hmv, hyv]
      exact (validDateB_eq_true y m d).2 ⟨h1, h2, h3, h4, h5, h6⟩
    refine ⟨raw, ?_⟩
    have hstr : strptime_dmY raw = some ⟨pyInt ys, pyInt ms, pyInt ds⟩ := by
      unfold strptime_dmY
      rw [hsplit]
      simp only []
      rw [if_pos (by rw [Bool.and_eq_true, Bool.and_eq_true]; exact ⟨⟨hmd, hmm⟩, hmy⟩),
        if_pos hvd]
    unfold Birthday.init
    rw [hstr]

/-- Concrete instance of `birthday_validation`: "29.02.2020" succeeds via
the claim-side characterization, and "29.02.2021" fails. -/
theorem birthday_validation_witness :
    (∃ v, Birthday.init "29.02.2020" = .ok v) ∧
    Birthday.init "29.02.2021" = .error PyErr.valueError := by
  have h := birthday_validation "29.02.2020" (by decide)
  refine ⟨h.1.mpr ⟨2020, 2, 29, ⟨['2', '9'], ['0', '2'], ['2', '0', '2', '0'],
    by decide, by decide, by decide, by decide, by decide, by decide, by decide,
    by decide, by decide, by decide⟩, by decide⟩, h.2.1⟩
